import Mathlib

set_option maxRecDepth 1000000

/-!
Verification of the cryptographic core of the repository
(`src/components/Algo/DoubleRatchetAlgo.tsx`, `src/components/Algo/X3DHEncryptor.tsx`,
`src/components/Algo/XEdDSA-and-VXEdDSA.tsx` and the tweetnacl Double Ratchet class).

Byte strings are modelled as `List Nat` with every byte `< 256`.  External
cryptographic primitives (HKDF-SHA-256, AES-GCM, xsalsa20-poly1305, Ed25519,
elliptic-curve Diffie-Hellman) are not part of the repository; they are
modelled by executable functions that enjoy exactly the interface properties
the repository relies on (fixed output lengths, keyed-pseudorandomness as an
injective-looking mixing function, decryption inverting encryption under the
same key and failing on tag mismatch, commutativity of the two-sided DH
computation).  Everything that the repository's own code does - argument
order, what is fed into which primitive, slicing, concatenation, state
updates, counters, error paths - is translated directly from the source.
-/

/-- Byte strings. -/
abbrev Bytes := List Nat

/-- One mixing step of the model hash (numbers kept below 2^32). -/
def mixStep (a b : Nat) : Nat := (a * 131 + b + 1) % 4294967296

/-- Model compression function: folds a byte string into a number. -/
def hashBytes (l : Bytes) : Nat := l.foldl mixStep 5381

/-- One output byte of a model stream: hash the domain tag, the counter and
the payload, then take the top byte after a multiplicative finalizer. -/
def streamByte (tag : Nat) (payload : Bytes) (i : Nat) : Nat :=
  hashBytes (tag :: i :: payload) * 2654435761 % 4294967296 / 16777216

/-- Model of HKDF-SHA-256 (as used through WebCrypto `deriveBits` and
`@stablelib/hkdf`): a keyed expansion of `ikm`, `salt` and `info` into
`len` pseudorandom bytes.  Faithful to the interface the repository uses:
deterministic, arbitrary output length, output bytes. -/
def hkdfModel (ikm salt info : Bytes) (len : Nat) : Bytes :=
  (List.range len).map (streamByte 1 (salt ++ 255 :: ikm ++ 254 :: info))

/-- Little-endian base-256 encoding with a fixed width. -/
def encodeLE : Nat → Nat → Bytes
  | 0, _ => []
  | k + 1, n => (n % 256) :: encodeLE k (n / 256)

/-- Little-endian base-256 decoding. -/
def decodeLE : Bytes → Nat
  | [] => 0
  | b :: l => b + 256 * decodeLE l

/-- Modular exponentiation (model of the scalar-multiplication group). -/
def powMod (b : Nat) : Nat → Nat → Nat
  | 0, m => 1 % m
  | e + 1, m => (b * powMod b e m) % m

/-- Group modulus of the Diffie-Hellman model. -/
def dhP : Nat := 57896044618658097711785492504343953926634992332820282019728792003956564819949

/-- Group generator of the Diffie-Hellman model. -/
def dhG : Nat := 9

/-- Model of `nacl.scalarMult` / WebCrypto ECDH `deriveBits`: the shared
secret of a secret key and a public key, as 32 bytes.  Modelled as
exponentiation in a commutative group, which provides exactly the algebraic
property (two-sidedness) that the repository relies on. -/
def scalarMult (sk pk : Bytes) : Bytes :=
  encodeLE 32 (powMod (decodeLE pk) (decodeLE sk) dhP)

/-- Public key belonging to the secret scalar `s`. -/
def pubOf (s : Nat) : Bytes := encodeLE 32 (powMod dhG s dhP)

/-- A Diffie-Hellman key pair (secret bytes, public bytes). -/
structure KeyPair where
  sec : Bytes
  pub : Bytes

deriving DecidableEq, Repr

/-- The key pair generated from the secret scalar `s`. -/
def kpOf (s : Nat) : KeyPair := ⟨encodeLE 32 s, pubOf s⟩

/-- Model of `Uint8Array.prototype.set`: overwrite `l` with `v` starting at
offset `i` (in-bounds use, which is the only use in the source). -/
def setAt (l : List Nat) (i : Nat) (v : List Nat) : List Nat :=
  l.take i ++ v ++ l.drop (i + v.length)

/-- Big-endian 32-bit write, as `DataView.setUint32` (wraps modulo 2^32). -/
def be32 (v : Nat) : Bytes :=
  [v / 16777216 % 256, v / 65536 % 256, v / 256 % 256, v % 256]

/-- Big-endian 32-bit read at offset `i`, as `DataView.getUint32`. -/
def readU32 (l : Bytes) (i : Nat) : Nat :=
  (l.getD i 0) * 16777216 + (l.getD (i + 1) 0) * 65536 +
    (l.getD (i + 2) 0) * 256 + l.getD (i + 3) 0

/-! ## Base64 (model of libsodium `to_base64` / `from_base64`, ORIGINAL variant) -/

/-- Base64 alphabet: sextet to ASCII code. -/
def b64EncChar (n : Nat) : Nat :=
  if n < 26 then 65 + n
  else if n < 52 then 97 + (n - 26)
  else if n < 62 then 48 + (n - 52)
  else if n = 62 then 43
  else 47

/-- Base64 alphabet: ASCII code to sextet. -/
def b64DecChar (c : Nat) : Nat :=
  if 65 ≤ c ∧ c ≤ 90 then c - 65
  else if 97 ≤ c ∧ c ≤ 122 then (c - 97) + 26
  else if 48 ≤ c ∧ c ≤ 57 then (c - 48) + 52
  else if c = 43 then 62
  else 63

/-- Standard (padded) base64 encoding of a byte string, as ASCII codes. -/
def encodeB64 : List Nat → List Nat
  | [] => []
  | [a] => [b64EncChar (a / 4), b64EncChar (a % 4 * 16), 61, 61]
  | [a, b] => [b64EncChar (a / 4), b64EncChar (a % 4 * 16 + b / 16), b64EncChar (b % 16 * 4), 61]
  | a :: b :: c :: rest =>
      b64EncChar (a / 4) :: b64EncChar (a % 4 * 16 + b / 16) ::
        b64EncChar (b % 16 * 4 + c / 64) :: b64EncChar (c % 64) :: encodeB64 rest

/-- Standard (padded) base64 decoding back to bytes. -/
def decodeB64 : List Nat → List Nat
  | e1 :: e2 :: e3 :: e4 :: rest =>
      if e3 = 61 then [b64DecChar e1 * 4 + b64DecChar e2 / 16]
      else if e4 = 61 then
        [b64DecChar e1 * 4 + b64DecChar e2 / 16, b64DecChar e2 % 16 * 16 + b64DecChar e3 / 4]
      else
        (b64DecChar e1 * 4 + b64DecChar e2 / 16) ::
          (b64DecChar e2 % 16 * 16 + b64DecChar e3 / 4) ::
            (b64DecChar e3 % 4 * 64 + b64DecChar e4) :: decodeB64 rest
  | _ => []

/-! ## Signature model (libsodium Ed25519 detached, `XEdDSA-and-VXEdDSA.tsx`)

libsodium's `crypto_sign_detached` / `crypto_sign_verify_detached` are
external primitives; they are modelled as an ideal deterministic signature:
the 64-byte signature of a message is a pseudorandom function of the public
key and the message, and `crypto_sign_detached` reads the public key out of
the second half of the 64-byte libsodium secret key (libsodium secret keys
are `seed(32) ++ publicKey(32)`).  This models exactly the round-trip
contract the repository relies on. -/

/-- Model 64-byte pseudorandom function. -/
def prf64 (input : Bytes) : Bytes :=
  (List.range 64).map (streamByte 2 input)

/-- Model of `sodium.crypto_sign_detached msg secretKey`. -/
def cryptoSignDetached (msg sk : Bytes) : Bytes := prf64 (sk.drop 32 ++ 246 :: msg)

/-- Model of `sodium.crypto_sign_verify_detached sig msg publicKey`. -/
def cryptoSignVerifyDetached (sig msg pk : Bytes) : Bool := sig == prf64 (pk ++ 246 :: msg)

/-- `signMessage` from `XEdDSA-and-VXEdDSA.tsx`: Ed25519-detached signature,
base64-encoded (`sodium.to_base64`, ORIGINAL variant). -/
def signMessage (msg secretKey : Bytes) : Bytes :=
  encodeB64 (cryptoSignDetached msg secretKey)

/-- `verifyMessage` from `XEdDSA-and-VXEdDSA.tsx`: base64-decode the
signature (`sodium.from_base64`), then Ed25519 verify. -/
def verifyMessage (msg signature sig_pk : Bytes) : Bool :=
  cryptoSignVerifyDetached (decodeB64 signature) msg sig_pk

/-! ## AES-GCM model (WebCrypto `crypto.subtle.encrypt` / `decrypt`)

AES-256-GCM is an external primitive.  It is modelled as a stream cipher
plus a 16-byte authentication tag over (key, iv, additional data,
ciphertext): the ciphertext body has the plaintext's length, the tag is
appended (WebCrypto returns `ciphertext || tag`), and decryption recomputes
and checks the tag, failing (`BadTag`) on mismatch. -/

/-- Keystream of `n` bytes from key and iv. -/
def gcmKeystream (key iv : Bytes) (n : Nat) : Bytes :=
  (List.range n).map (streamByte 3 (key ++ 245 :: iv))

/-- 16-byte authentication tag over key, iv, additional data, ciphertext. -/
def gcmTag (key iv ad ct : Bytes) : Bytes :=
  (List.range 16).map (streamByte 4 (key ++ 243 :: iv ++ 242 :: ad ++ 241 :: ct))

/-- Byte-wise addition modulo 256. -/
def addByte (p k : Nat) : Nat := (p + k) % 256

/-- Byte-wise inverse of `addByte` for keystream bytes `< 256`. -/
def subByte (c k : Nat) : Nat := (c + 256 - k) % 256

/-- Model of AES-GCM encryption: `ciphertext body || 16-byte tag`. -/
def gcmEncrypt (key iv ad pt : Bytes) : Bytes :=
  let body := List.zipWith addByte pt (gcmKeystream key iv pt.length)
  body ++ gcmTag key iv ad body

/-- Model of AES-GCM decryption: checks the 16-byte tag, returns `none` on
tag mismatch (`BadTag`). -/
def gcmDecrypt (key iv ad data : Bytes) : Option Bytes :=
  if data.length < 16 then none
  else
    let body := data.take (data.length - 16)
    let tag := data.drop (data.length - 16)
    if gcmTag key iv ad body = tag then
      some (List.zipWith subByte body (gcmKeystream key iv body.length))
    else none

/-! ## AEAD wrappers, header framing and KDFs of `DoubleRatchetAlgo.tsx` -/

/-- `encryptAEAD` from `DoubleRatchetAlgo.tsx`: AES-GCM with a 12-byte IV,
the IV prepended to the GCM output.  The source draws `iv` from
`crypto.getRandomValues`; the model takes it as an explicit argument. -/
def encryptAEAD (mk iv pt ad : Bytes) : Bytes := iv ++ gcmEncrypt mk iv ad pt

/-- `decryptAEAD` from `DoubleRatchetAlgo.tsx`: slice off the first 12 bytes
as the IV, AES-GCM-decrypt the rest; `none` is the `BadTag` failure. -/
def decryptAEAD (mk data ad : Bytes) : Option Bytes :=
  gcmDecrypt mk (data.take 12) ad (data.drop 12)

/-- `HEADER` from `DoubleRatchetAlgo.tsx`: 4-byte big-endian `pn`, then
4-byte big-endian `n`, then the raw exported public key (on P-256 a 65-byte
uncompressed point). -/
def mkHEADER (dhPub : Bytes) (pn n : Nat) : Bytes := be32 pn ++ be32 n ++ dhPub

/-- The header parse performed at the top of `DoubleRatchet.decrypt`:
`getUint32(0)`, `getUint32(4)`, `slice(8)`. -/
def parseHEADER (header : Bytes) : Nat × Nat × Bytes :=
  (readU32 header 0, readU32 header 4, header.drop 8)

/-- Info label `DoubleRatchetRK` (ASCII). -/
def infoRK : Bytes := [68, 111, 117, 98, 108, 101, 82, 97, 116, 99, 104, 101, 116, 82, 75]

/-- Info label `DoubleRatchetCK` (ASCII). -/
def infoCK : Bytes := [68, 111, 117, 98, 108, 101, 82, 97, 116, 99, 104, 101, 116, 67, 75]

/-- `KDF_RK` from `DoubleRatchetAlgo.tsx`.  As in the source: the HKDF key
(ikm) is the ROOT KEY (`importHKDFKey(rootKey)`), the salt is the root key
again, the info label is `DoubleRatchetRK`, 64 bytes of output are split
into (new root key, new chain key).  The `dhOut` parameter is accepted but
never used, exactly as in the source. -/
def KDF_RK (rootKey dhOut : Bytes) : Bytes × Bytes :=
  let out := hkdfModel rootKey rootKey infoRK 64
  (out.take 32, (out.drop 32).take 32)

/-- `KDF_CK` from `DoubleRatchetAlgo.tsx`: HKDF with ikm = salt = chain key,
info `DoubleRatchetCK`, 64 bytes split into (next chain key, message key). -/
def KDF_CK (chainKey : Bytes) : Bytes × Bytes :=
  let out := hkdfModel chainKey chainKey infoCK 64
  (out.take 32, (out.drop 32).take 32)

/-! ## The `DoubleRatchet` class of `DoubleRatchetAlgo.tsx` -/

/-- `MAX_SKIP` from `DoubleRatchetAlgo.tsx`. -/
def MAX_SKIP : Nat := 1000

/-- The skipped-key store: the source uses a `Map` keyed by the string
`PN|Nr`; modelled as an association list keyed by the pair `(PN, Nr)` with
`Map.set` semantics (replace in place, else append). -/
abbrev SkipStore := List ((Nat × Nat) × Bytes)

/-- `Map.prototype.get`. -/
def storeLookup : SkipStore → Nat × Nat → Option Bytes
  | [], _ => none
  | e :: rest, k => if e.1 = k then some e.2 else storeLookup rest k

/-- `Map.prototype.set`. -/
def storeSet : SkipStore → Nat × Nat → Bytes → SkipStore
  | [], k, v => [(k, v)]
  | e :: rest, k, v => if e.1 = k then (k, v) :: rest else e :: storeSet rest k v

/-- Errors thrown by the `DoubleRatchet` class (`throw new Error(...)`),
plus the AEAD failure surfaced by `crypto.subtle.decrypt`. -/
inductive DRErr where
  | notInitialized
  | recvChainNotInitialized
  | tooManySkipped
  | nullChainKey
  | decryptFailed

deriving DecidableEq, Repr

/-- Session state of the `DoubleRatchet` class. -/
structure DRState where
  dhs : KeyPair
  dhr : Option Bytes
  rk : Bytes
  cks : Option Bytes
  ckr : Option Bytes
  Ns : Nat
  Nr : Nat
  PN : Nat
  skipped : SkipStore

deriving DecidableEq, Repr

/-- The `while` loop of `DoubleRatchet.skipTo`, with `until - Nr` as fuel:
repeatedly advance the receive chain, storing each message key under the
key `(PN, Nr)`. -/
def skipToAux : Nat → Bytes → Nat → Nat → SkipStore → Bytes × Nat × SkipStore
  | 0, ck, nr, _, st => (ck, nr, st)
  | fuel + 1, ck, nr, pn, st =>
      let r := KDF_CK ck
      skipToAux fuel r.1 (nr + 1) pn (storeSet st (pn, nr) r.2)

/-- `DoubleRatchet.skipTo`: throw `Too many skipped messages` when the gap
exceeds `MAX_SKIP`, otherwise advance the receive chain up to `until`,
storing the skipped message keys. -/
def skipTo (s : DRState) (untilN : Nat) : Except DRErr DRState :=
  if s.Nr + MAX_SKIP < untilN then .error .tooManySkipped
  else if s.Nr < untilN then
    match s.ckr with
    | none => .error .nullChainKey
    | some ck =>
        let r := skipToAux (untilN - s.Nr) ck s.Nr s.PN s.skipped
        .ok { s with ckr := some r.1, Nr := r.2.1, skipped := r.2.2 }
  else .ok s

/-- `DoubleRatchet.encrypt`: symmetric ratchet step plus AEAD encryption.
The source draws the AES-GCM IV internally; the model takes it as an
argument.  Returns the new state, the header and the ciphertext. -/
def encryptDR (s : DRState) (pt ad iv : Bytes) :
    Except DRErr (DRState × Bytes × Bytes) :=
  match s.cks with
  | none => .error .notInitialized
  | some cks =>
      let r := KDF_CK cks
      let mk := r.2
      let header := mkHEADER s.dhs.pub s.PN s.Ns
      let adFull := ad ++ header
      let ct := encryptAEAD mk iv pt adFull
      .ok ({ s with cks := some r.1, Ns := s.Ns + 1 }, header, ct)

/-- `DoubleRatchet.decrypt`.  Returns the state as it stands when the call
finishes - the source mutates `this` as it goes, so on a thrown error the
mutations performed before the throw remain.  `fresh` stands for the key
pair `generateDH()` produces during a DH ratchet step. -/
def decryptDR (s : DRState) (header ct ad : Bytes) (fresh : KeyPair) :
    DRState × Except DRErr Bytes :=
  let pn := readU32 header 0
  let n := readU32 header 4
  let pubRaw := header.drop 8
  let needRatchet := match s.dhr with
    | none => true
    | some oldRaw => pubRaw ≠ oldRaw
  let afterSkipOld : DRState × Option DRErr :=
    if needRatchet then
      if s.ckr ≠ none then
        match skipTo s pn with
        | .error e => (s, some e)
        | .ok s1 => (s1, none)
      else (s, none)
    else (s, none)
  match afterSkipOld with
  | (sErr, some e) => (sErr, .error e)
  | (s1, none) =>
      let s2 :=
        if needRatchet then
          let sA := { s1 with PN := s1.Ns, Ns := 0, Nr := 0, dhr := some pubRaw }
          let dhOut1 := scalarMult sA.dhs.sec pubRaw
          let r1 := KDF_RK sA.rk dhOut1
          let sB := { sA with rk := r1.1, ckr := some r1.2, dhs := fresh }
          let dhOut2 := scalarMult sB.dhs.sec pubRaw
          let r2 := KDF_RK sB.rk dhOut2
          { sB with rk := r2.1, cks := some r2.2 }
        else s1
      if s2.ckr = none then (s2, .error .recvChainNotInitialized)
      else
        match skipTo s2 n with
        | .error e => (s2, .error e)
        | .ok s3 =>
            match s3.ckr with
            | none => (s3, .error .nullChainKey)
            | some ckr =>
                let r := KDF_CK ckr
                let mk := r.2
                let s4 := { s3 with ckr := some r.1, Nr := s3.Nr + 1 }
                let adFull := ad ++ header
                match decryptAEAD mk ct adFull with
                | none => (s4, .error .decryptFailed)
                | some pt => (s4, .ok pt)

/-- `DoubleRatchet.initAlice`: generate `DHs`, set `DHr`, run
`KDF_RK(sharedSecret, DH(DHs, DHr))` to obtain the root key and the sending
chain key; `CKr` empty, counters zero, skipped store cleared. -/
def initAlice (sharedSecret : Bytes) (bobPub : Bytes) (fresh : KeyPair) : DRState :=
  let dhOut := scalarMult fresh.sec bobPub
  let r := KDF_RK sharedSecret dhOut
  { dhs := fresh, dhr := some bobPub, rk := r.1, cks := some r.2, ckr := none,
    Ns := 0, Nr := 0, PN := 0, skipped := [] }

/-! ## xsalsa20-poly1305 model (`nacl.secretbox` / `nacl.secretbox.open`)

Same modelling as AES-GCM: stream cipher body plus a 16-byte MAC;
tweetnacl returns `MAC(16) || body` and `open` returns `null` (here `none`)
on MAC mismatch. -/

/-- Keystream for the secretbox model. -/
def sbKeystream (key nonce : Bytes) (n : Nat) : Bytes :=
  (List.range n).map (streamByte 5 (key ++ 239 :: nonce))

/-- 16-byte MAC for the secretbox model. -/
def sbTag (key nonce ct : Bytes) : Bytes :=
  (List.range 16).map (streamByte 6 (key ++ 237 :: nonce ++ 236 :: ct))

/-- Model of `nacl.secretbox(plaintext, nonce, key)`. -/
def secretbox (pt nonce key : Bytes) : Bytes :=
  let body := List.zipWith addByte pt (sbKeystream key nonce pt.length)
  sbTag key nonce body ++ body

/-- Model of `nacl.secretbox.open(box, nonce, key)`. -/
def secretboxOpen (box nonce key : Bytes) : Option Bytes :=
  if box.length < 16 then none
  else
    let tag := box.take 16
    let body := box.drop 16
    if sbTag key nonce body = tag then
      some (List.zipWith subByte body (sbKeystream key nonce body.length))
    else none

/-! ## The tweetnacl `DoubleRatchet` class (`src/unnamed/part_007`) -/

/-- Info label `DoubleRatchetRK1` (ASCII). -/
def infoRK1 : Bytes := infoRK ++ [49]

/-- Info label `DoubleRatchetRK2` (ASCII). -/
def infoRK2 : Bytes := infoRK ++ [50]

/-- Session state of the tweetnacl `DoubleRatchet` class. -/
structure NRState where
  rk : Bytes
  cks : Bytes
  ckr : Option Bytes
  dhs : KeyPair
  dhr : Bytes
  Ns : Nat
  Nr : Nat
  PN : Nat

deriving DecidableEq, Repr

/-- `ratchetCK` of the tweetnacl class: HKDF with ikm = salt = chain key,
info `DoubleRatchetCK`, 64 bytes split into (chain key, message key). -/
def ratchetCK (chainKey : Bytes) : Bytes × Bytes :=
  let out := hkdfModel chainKey chainKey infoCK 64
  (out.take 32, (out.drop 32).take 32)

/-- The tweetnacl class constructor: root KDF of the shared secret into
`rk` and `cks`, no receive chain, fresh sending DH pair, peer ratchet key. -/
def mkNaclDR (sharedSecret ratchetPub : Bytes) (fresh : KeyPair) : NRState :=
  let out := hkdfModel sharedSecret sharedSecret infoRK 64
  { rk := out.take 32, cks := (out.drop 32).take 32, ckr := none,
    dhs := fresh, dhr := ratchetPub, Ns := 0, Nr := 0, PN := 0 }

/-- `dhRatchet` of the tweetnacl class: reset counters, adopt the incoming
public key, update root and sending chain from DH1 (info
`DoubleRatchetRK1`), rotate the key pair, then update root and receiving
chain from DH2 (info `DoubleRatchetRK2`). -/
def dhRatchet (s : NRState) (fresh : KeyPair) (incomingPub : Bytes) : NRState :=
  let s1 := { s with PN := s.Ns, Ns := 0, Nr := 0, dhr := incomingPub }
  let dh1 := scalarMult s1.dhs.sec s1.dhr
  let out1 := hkdfModel dh1 s1.rk infoRK1 64
  let s2 := { s1 with rk := out1.take 32, cks := (out1.drop 32).take 32, dhs := fresh }
  let dh2 := scalarMult fresh.sec s2.dhr
  let out2 := hkdfModel dh2 s2.rk infoRK2 64
  { s2 with rk := out2.take 32, ckr := some ((out2.drop 32).take 32) }

/-- `encrypt` of the tweetnacl class: symmetric ratchet on the sending
chain, then `publicKey || Ns || PN || nonce || secretbox` (note `Ns` and
`PN` are single bytes there, wrapping modulo 256). -/
def encryptN (s : NRState) (pt nonce : Bytes) : NRState × Bytes :=
  let r := ratchetCK s.cks
  let s1 := { s with cks := r.1, Ns := s.Ns + 1 }
  let cipher := secretbox pt nonce r.2
  (s1, s1.dhs.pub ++ [s1.Ns % 256, s1.PN % 256] ++ nonce ++ cipher)

/-- The chain-selection part of the tweetnacl `decrypt`: on the first
message (no receive chain yet) ratchet the SENDING chain; otherwise DH
ratchet when the incoming public key differs from `dhr`, then ratchet the
receiving chain.  Returns `none` for the `no receiving chain` warn branch. -/
def drStep (s : NRState) (fresh : KeyPair) (dhPub : Bytes) : NRState × Option Bytes :=
  match s.ckr with
  | none =>
      let r := ratchetCK s.cks
      ({ s with cks := r.1, Nr := s.Nr + 1 }, some r.2)
  | some _ =>
      let s1 := if dhPub ≠ s.dhr then dhRatchet s fresh dhPub else s
      match s1.ckr with
      | none => (s1, none)
      | some ck =>
          let r := ratchetCK ck
          ({ s1 with ckr := some r.1, Nr := s1.Nr + 1 }, some r.2)

/-- Nonce field of a tweetnacl ratchet payload (offsets 34..57). -/
def nonceOf (payload : Bytes) : Bytes := (payload.drop 34).take 24

/-- Cipher field of a tweetnacl ratchet payload (offset 58 on). -/
def cipherOf (payload : Bytes) : Bytes := payload.drop 58

/-- `decrypt` of the tweetnacl class.  It never throws: both the warn
branch (no receiving chain) and a failed `secretbox.open` resolve with an
empty byte array. -/
def decryptN (s : NRState) (fresh : KeyPair) (payload : Bytes) : NRState × Bytes :=
  let dhPub := payload.take 32
  match drStep s fresh dhPub with
  | (s1, none) => (s1, [])
  | (s1, some mk) =>
      match secretboxOpen (cipherOf payload) (nonceOf payload) mk with
      | none => (s1, [])
      | some pt => (s1, pt)

/-! ## X3DH (`X3DHEncryptor.tsx`, the tweetnacl `X3DHSession` class) -/

/-- Info label `X3DH-Session` (ASCII), the label the source uses. -/
def infoX3DHSession : Bytes := [88, 51, 68, 72, 45, 83, 101, 115, 115, 105, 111, 110]

/-- Info label `X3DH-Signal` (ASCII), the label the specification names. -/
def infoX3DHSignal : Bytes := [88, 51, 68, 72, 45, 83, 105, 103, 110, 97, 108]

/-- Peer bundle consumed by `X3DHSession.deriveSession`. -/
structure PeerBundle where
  edPub : Bytes
  dhPub : Bytes
  spPub : Bytes
  spSig : Bytes
  otpPub : Option Bytes
  ephKeypair : Option KeyPair

deriving DecidableEq, Repr

/-- Remote bundle consumed by `X3DHSession.deriveSessionFromRemote`. -/
structure RemoteBundle where
  edPub : Bytes
  dhPub : Bytes
  spPub : Bytes
  spSig : Bytes
  otpPub : Option Bytes
  ephPub : Bytes

deriving DecidableEq, Repr

/-- Error thrown by both derivations on a bad SPK signature. -/
inductive X3DHErr where
  | invalidSPKSignature

deriving DecidableEq, Repr

/-- The IKM assembly of the source: a 128-byte `Uint8Array` with the four
DH outputs written at offsets 0, 32, 64, 96. -/
def x3dhIKM (dh1 dh2 dh3 dh4 : Bytes) : Bytes :=
  setAt (setAt (setAt (setAt (List.replicate 128 0) 0 dh1) 32 dh2) 64 dh3) 96 dh4

/-- `X3DHSession.deriveSession` (initiator): verify the SPK signature, use
the provided ephemeral pair (or a fresh one), compute DH1..DH4 - with DH4 a
32-byte ZERO block when no one-time prekey is present - and run
HKDF(ikm, salt = 32 zero bytes, info `X3DH-Session`) to 32 bytes. -/
def deriveSession (dhSec : Bytes) (fresh : KeyPair) (b : PeerBundle) :
    Except X3DHErr Bytes :=
  if verifyMessage b.spPub b.spSig b.edPub then
    let eph := b.ephKeypair.getD fresh
    let dh1 := scalarMult dhSec b.spPub
    let dh2 := scalarMult eph.sec b.dhPub
    let dh3 := scalarMult eph.sec b.spPub
    let dh4 := match b.otpPub with
      | some o => scalarMult eph.sec o
      | none => List.replicate 32 0
    .ok (hkdfModel (x3dhIKM dh1 dh2 dh3 dh4) (List.replicate 32 0) infoX3DHSession 32)
  else .error .invalidSPKSignature

/-- The responder's own secret keys used by `deriveSessionFromRemote`:
identity, signed prekey, and the first one-time prekey (`otpPairs[0]`). -/
structure ResponderKeys where
  dhSec : Bytes
  spSec : Bytes
  otp0Sec : Bytes

deriving DecidableEq, Repr

/-- `X3DHSession.deriveSessionFromRemote` (responder): mirrored DH operands
(DH4 uses `otpPairs[0]` whenever the remote bundle names any one-time
prekey), same IKM assembly, salt and info label. -/
def deriveSessionFromRemote (st : ResponderKeys) (r : RemoteBundle) :
    Except X3DHErr Bytes :=
  if verifyMessage r.spPub r.spSig r.edPub then
    let dh1 := scalarMult st.spSec r.dhPub
    let dh2 := scalarMult st.dhSec r.ephPub
    let dh3 := scalarMult st.spSec r.ephPub
    let dh4 := match r.otpPub with
      | some _ => scalarMult st.otp0Sec r.ephPub
      | none => List.replicate 32 0
    .ok (hkdfModel (x3dhIKM dh1 dh2 dh3 dh4) (List.replicate 32 0) infoX3DHSession 32)
  else .error .invalidSPKSignature

/-- The session-key formula claim C4 states (spec section 4.3): HKDF over
`F || DH1 || DH2 || DH3 [|| DH4]` with `F` 32 bytes of 0xFF, salt 32 zero
bytes, info `X3DH-Signal`, 32 bytes of output; written from the
specification's words for comparison with `deriveSession`. -/
def x3dhSpecSK (dh1 dh2 dh3 : Bytes) (dh4 : Option Bytes) : Bytes :=
  hkdfModel
    (List.replicate 32 255 ++ dh1 ++ dh2 ++ dh3 ++ (match dh4 with | some d => d | none => []))
    (List.replicate 32 0) infoX3DHSignal 32

/-- The root-KDF formula claim C1 states (spec section 4.4.1):
HKDF(ikm = dh_out, salt = RK, info `DR-RK`, 64), split in halves; written
from the specification's words for comparison with `KDF_RK`. -/
def KDF_RKspec (rootKey dhOut : Bytes) : Bytes × Bytes :=
  let out := hkdfModel dhOut rootKey [68, 82, 45, 82, 75] 64
  (out.take 32, (out.drop 32).take 32)

deriving instance DecidableEq for Except

/-- Session state used for claim C2: a session with both chains
established, the peer's ratchet key known, and nothing yet received. -/
def c2S0 : DRState :=
  { dhs := kpOf 3, dhr := some (pubOf 5), rk := [1], cks := some [2], ckr := some [3],
    Ns := 0, Nr := 0, PN := 0, skipped := [] }

/-- Claim C2 run: receive a forged ciphertext (28 arbitrary bytes) under a
header matching the current remote ratchet key. -/
def c2Run : DRState × Except DRErr Bytes :=
  decryptDR c2S0 (mkHEADER (pubOf 5) 0 0) (List.replicate 28 0) [] (kpOf 7)

/-- Receive chain key shared by sender and receiver in the claim C3 run. -/
def c3CK0 : Bytes := [6]

/-- The sender's ratchet public key in the claim C3 run. -/
def c3Pub : Bytes := pubOf 5

/-- Sender chain step for message 0. -/
def c3M0 : Bytes × Bytes := KDF_CK c3CK0

/-- Sender chain step for message 1. -/
def c3M1 : Bytes × Bytes := KDF_CK c3M0.1

/-- Sender chain step for message 2. -/
def c3M2 : Bytes × Bytes := KDF_CK c3M1.1

/-- Header of message 1 (message number 1, same ratchet key). -/
def c3Hdr1 : Bytes := mkHEADER c3Pub 0 1

/-- Header of message 2 (message number 2, same ratchet key). -/
def c3Hdr2 : Bytes := mkHEADER c3Pub 0 2

/-- Message 1 as the sender's `encrypt` would produce it (plaintext `[11]`,
message key from chain step 1, AAD = header). -/
def c3Ct1 : Bytes := encryptAEAD c3M1.2 (List.replicate 12 0) [11] c3Hdr1

/-- Message 2 as the sender's `encrypt` would produce it (plaintext `[22]`,
message key from chain step 2, AAD = header). -/
def c3Ct2 : Bytes := encryptAEAD c3M2.2 (List.replicate 12 0) [22] c3Hdr2

/-- Receiver state for claim C3: receive chain in sync with the sender. -/
def c3S0 : DRState :=
  { dhs := kpOf 3, dhr := some c3Pub, rk := [1], cks := none, ckr := some c3CK0,
    Ns := 0, Nr := 0, PN := 0, skipped := [] }

/-- First receive of the claim C3 run: message 2 arrives first. -/
def c3Recv2 : DRState × Except DRErr Bytes := decryptDR c3S0 c3Hdr2 c3Ct2 [] (kpOf 7)

/-- Second receive of the claim C3 run: message 1 arrives out of order. -/
def c3Recv1 : DRState × Except DRErr Bytes := decryptDR c3Recv2.1 c3Hdr1 c3Ct1 [] (kpOf 7)

def c6cexS0 : DRState :=
  { dhs := kpOf 3, dhr := some (pubOf 5), rk := [1], cks := none, ckr := some [4],
    Ns := 0, Nr := 0, PN := 0, skipped := [] }

def c6aux1 : Bytes × Nat × SkipStore := skipToAux 1000 [4] 0 0 []

def c6s1 : DRState :=
  { dhs := kpOf 3, dhr := some (pubOf 5), rk := [1], cks := none, ckr := some c6aux1.1,
    Ns := 0, Nr := c6aux1.2.1, PN := 0, skipped := c6aux1.2.2 }

def c6cexTwo : Except DRErr DRState :=
  match skipTo c6cexS0 1000 with
  | .error e => .error e
  | .ok s1 => skipTo s1 2000

def c8Pub : Bytes := List.replicate 65 7

def c6wA : DRState :=
  { dhs := kpOf 3, dhr := none, rk := [1], cks := none, ckr := none,
    Ns := 0, Nr := 0, PN := 0, skipped := [] }

def c6wB : DRState :=
  { dhs := kpOf 3, dhr := some (pubOf 5), rk := [1], cks := none, ckr := some [4],
    Ns := 0, Nr := 0, PN := 0, skipped := [] }

def c6wBRes : DRState :=
  match skipTo c6wB 2 with
  | .ok s' => s'
  | .error _ => c6wB

def c6wHdr : Bytes := mkHEADER (pubOf 5) 0 1999

def c10S0 : NRState :=
  { rk := [1], cks := [2], ckr := some [4], dhs := kpOf 3, dhr := pubOf 5,
    Ns := 0, Nr := 0, PN := 0 }

def c10S1 : NRState :=
  { rk := [1], cks := [2], ckr := some (ratchetCK [4]).1, dhs := kpOf 3, dhr := pubOf 5,
    Ns := 0, Nr := 1, PN := 0 }

def c10Forged : Bytes := pubOf 5 ++ [1, 0] ++ List.replicate 24 0 ++ List.replicate 16 0

def c10Honest : Bytes :=
  pubOf 5 ++ [1, 0] ++ List.replicate 24 0 ++
    secretbox [] (List.replicate 24 0) (ratchetCK [4]).2

/-- The ephemeral pair `deriveSession` uses. -/
def ephOf (b : PeerBundle) (fresh : KeyPair) : KeyPair := b.ephKeypair.getD fresh

def c4EdSk : Bytes := List.replicate 32 1 ++ List.replicate 32 2

def c4Bundle : PeerBundle :=
  { edPub := List.replicate 32 2, dhPub := pubOf 11, spPub := pubOf 13,
    spSig := signMessage (pubOf 13) c4EdSk,
    otpPub := some (pubOf 17), ephKeypair := some (kpOf 19) }

def c5EdSk : Bytes := List.replicate 32 1 ++ List.replicate 32 2

def c5Bundle : PeerBundle :=
  { edPub := List.replicate 32 2, dhPub := pubOf 5, spPub := pubOf 7,
    spSig := signMessage (pubOf 7) c5EdSk,
    otpPub := some (pubOf 11), ephKeypair := some ⟨encodeLE 32 3, pubOf 3⟩ }

def c5Remote : RemoteBundle :=
  { edPub := List.replicate 32 2, dhPub := pubOf 2, spPub := pubOf 7,
    spSig := signMessage (pubOf 7) c5EdSk, otpPub := some (pubOf 11), ephPub := pubOf 3 }

theorem encodeLE_length (k n : Nat) : (encodeLE k n).length = k := by
  induction k generalizing n with
  | zero => rfl
  | succ k ih => simp [encodeLE, ih]

theorem decodeLE_encodeLE (k n : Nat) : decodeLE (encodeLE k n) = n % 256 ^ k := by
  induction k generalizing n with
  | zero => simp [encodeLE, decodeLE, Nat.mod_one]
  | succ k ih =>
      have h := Nat.div_add_mod (n % (256 * 256 ^ k)) 256
      rw [Nat.mod_mul_right_div_self, Nat.mod_mod_of_dvd _ ⟨256 ^ k, rfl⟩] at h
      simp only [encodeLE, decodeLE, ih]
      rw [pow_succ, Nat.mul_comm (256 ^ k) 256]
      omega

theorem powMod_eq (b e m : Nat) : powMod b e m = b ^ e % m := by
  induction e with
  | zero => simp [powMod]
  | succ e ih => rw [powMod, ih, Nat.mul_mod_mod, pow_succ, Nat.mul_comm]

theorem powMod_lt (b e m : Nat) (h : 0 < m) : powMod b e m < m := by
  cases e with
  | zero => simpa [powMod] using Nat.mod_lt _ h
  | succ e => simpa [powMod] using Nat.mod_lt _ h

theorem dhP_pos : 0 < dhP := by decide

theorem dhP_lt : dhP < 256 ^ 32 := by decide

/-- The two-sidedness of the Diffie-Hellman model: both orders of mixing a
secret with the other party's public key give the same shared secret. -/
theorem scalarMult_comm (a b : Nat) (ha : a < 256 ^ 32) (hb : b < 256 ^ 32) :
    scalarMult (encodeLE 32 a) (pubOf b) = scalarMult (encodeLE 32 b) (pubOf a) := by
  unfold scalarMult pubOf
  rw [decodeLE_encodeLE, decodeLE_encodeLE, decodeLE_encodeLE, decodeLE_encodeLE,
    Nat.mod_eq_of_lt ha, Nat.mod_eq_of_lt hb,
    Nat.mod_eq_of_lt (lt_trans (powMod_lt _ _ _ dhP_pos) dhP_lt),
    Nat.mod_eq_of_lt (lt_trans (powMod_lt _ _ _ dhP_pos) dhP_lt)]
  rw [powMod_eq, powMod_eq, powMod_eq, powMod_eq]
  rw [← Nat.pow_mod, ← Nat.pow_mod, ← Nat.pow_mul, ← Nat.pow_mul, Nat.mul_comm]

theorem b64DecEnc : ∀ n, n < 64 → b64DecChar (b64EncChar n) = n := by decide

theorem b64EncChar_ne_61 : ∀ n, n < 64 → b64EncChar n ≠ 61 := by decide

theorem decodeB64_encodeB64 :
    ∀ l : List Nat, (∀ x ∈ l, x < 256) → decodeB64 (encodeB64 l) = l := by
  intro l
  induction l using encodeB64.induct with
  | case1 => intro _; simp [encodeB64, decodeB64]
  | case2 a =>
      intro h
      have ha : a < 256 := h a (by simp)
      have e1 := b64DecEnc (a / 4) (by omega)
      have e2 := b64DecEnc (a % 4 * 16) (by omega)
      simp [encodeB64, decodeB64, e1, e2]
      omega
  | case3 a b =>
      intro h
      have ha : a < 256 := h a (by simp)
      have hb : b < 256 := h b (by simp)
      have n3 : b64EncChar (b % 16 * 4) ≠ 61 := b64EncChar_ne_61 _ (by omega)
      have e1 := b64DecEnc (a / 4) (by omega)
      have e2 := b64DecEnc (a % 4 * 16 + b / 16) (by omega)
      have e3 := b64DecEnc (b % 16 * 4) (by omega)
      simp [encodeB64, decodeB64, n3, e1, e2, e3]
      omega
  | case4 a b c rest ih =>
      intro h
      have ha : a < 256 := h a (by simp)
      have hb : b < 256 := h b (by simp)
      have hc : c < 256 := h c (by simp)
      have n3 : b64EncChar (b % 16 * 4 + c / 64) ≠ 61 := b64EncChar_ne_61 _ (by omega)
      have n4 : b64EncChar (c % 64) ≠ 61 := b64EncChar_ne_61 _ (by omega)
      have e1 := b64DecEnc (a / 4) (by omega)
      have e2 := b64DecEnc (a % 4 * 16 + b / 16) (by omega)
      have e3 := b64DecEnc (b % 16 * 4 + c / 64) (by omega)
      have e4 := b64DecEnc (c % 64) (by omega)
      have hrest : ∀ x ∈ rest, x < 256 := fun x hx => h x (by simp [hx])
      simp [encodeB64, decodeB64, n3, n4, e1, e2, e3, e4, ih hrest]
      omega

/-! ## List helpers -/

theorem take_len_append (a b : List Nat) (n : Nat) (h : a.length = n) :
    (a ++ b).take n = a := by
  subst h; exact List.take_left a b

theorem drop_len_append (a b : List Nat) (n : Nat) (h : a.length = n) :
    (a ++ b).drop n = b := by
  subst h; exact List.drop_left a b

theorem drop_len_append_add (a b : List Nat) (n m : Nat) (h : a.length = n) :
    (a ++ b).drop (n + m) = b.drop m := by
  subst h
  induction a with
  | nil => simp
  | cons x xs ih => simp [Nat.succ_add, ih]

theorem streamByte_lt (tag : Nat) (payload : Bytes) (i : Nat) :
    streamByte tag payload i < 256 := by
  unfold streamByte
  have h : hashBytes (tag :: i :: payload) * 2654435761 % 4294967296 < 16777216 * 256 :=
    Nat.mod_lt _ (by decide)
  exact Nat.div_lt_of_lt_mul h

theorem prf64_lt (input : Bytes) : ∀ x ∈ prf64 input, x < 256 := by
  intro x hx
  simp only [prf64, List.mem_map] at hx
  obtain ⟨i, _, rfl⟩ := hx
  exact streamByte_lt _ _ _

theorem gcmKeystream_length (key iv : Bytes) (n : Nat) :
    (gcmKeystream key iv n).length = n := by simp [gcmKeystream]

theorem gcmKeystream_lt (key iv : Bytes) (n : Nat) :
    ∀ x ∈ gcmKeystream key iv n, x < 256 := by
  intro x hx
  simp only [gcmKeystream, List.mem_map] at hx
  obtain ⟨i, _, rfl⟩ := hx
  exact streamByte_lt _ _ _

theorem zip_sub_add (pt ks : Bytes) (hlen : pt.length = ks.length)
    (hpt : ∀ x ∈ pt, x < 256) (hks : ∀ x ∈ ks, x < 256) :
    List.zipWith subByte (List.zipWith addByte pt ks) ks = pt := by
  induction pt generalizing ks with
  | nil => simp
  | cons p ps ih =>
      cases ks with
      | nil => simp at hlen
      | cons k kt =>
          have hp : p < 256 := hpt p (by simp)
          have hk : k < 256 := hks k (by simp)
          simp only [List.zipWith]
          rw [ih kt (by simpa using hlen) (fun x hx => hpt x (by simp [hx]))
            (fun x hx => hks x (by simp [hx]))]
          simp only [List.cons.injEq, and_true]
          unfold addByte subByte
          omega

theorem gcmEncrypt_length (key iv ad pt : Bytes) :
    (gcmEncrypt key iv ad pt).length = pt.length + 16 := by
  simp [gcmEncrypt, gcmTag, List.length_zipWith, gcmKeystream_length]

theorem gcmDecrypt_gcmEncrypt (key iv ad pt : Bytes) (hpt : ∀ x ∈ pt, x < 256) :
    gcmDecrypt key iv ad (gcmEncrypt key iv ad pt) = some pt := by
  have hbl : (List.zipWith addByte pt (gcmKeystream key iv pt.length)).length = pt.length := by
    simp [List.length_zipWith, gcmKeystream_length]
  unfold gcmDecrypt
  rw [gcmEncrypt_length]
  simp only [Nat.add_sub_cancel]
  rw [if_neg (by omega)]
  unfold gcmEncrypt
  simp only []
  rw [take_len_append _ _ _ hbl, drop_len_append _ _ _ hbl, if_pos rfl, hbl]
  rw [zip_sub_add pt _ (by rw [gcmKeystream_length]) hpt (gcmKeystream_lt key iv pt.length)]

/-! ## Claims -/

/-- Claim C1: the specification says `KDF_RK(RK, dh_out)` is HKDF keyed by
the DH output with the root key as salt, so that the result depends on
`dh_out`.  The code's `KDF_RK` never reads its `dhOut` parameter: for every
root key the result is identical for all DH outputs, while the
specification's formula (`KDF_RKspec`) does distinguish them. -/
theorem claim_C1_kdf_rk_ignores_dh :
    (∀ rootKey d1 d2 : Bytes, KDF_RK rootKey d1 = KDF_RK rootKey d2) ∧
      KDF_RKspec (List.replicate 32 0) (List.replicate 32 0) ≠
        KDF_RKspec (List.replicate 32 0) (List.replicate 32 1) := by
  refine ⟨fun _ _ _ => rfl, by decide⟩

/-- Claim C2: the specification requires a failed receive to leave the
session state unchanged.  In the code the receive chain key is advanced and
`Nr` incremented before AEAD verification, so after a failed (forged)
receive the state differs from the state before the call. -/
theorem claim_C2_state_mutated_on_failure :
    c2Run.2 = .error .decryptFailed ∧ c2Run.1 ≠ c2S0 ∧
      c2Run.1.Nr = c2S0.Nr + 1 ∧ c2Run.1.ckr ≠ c2S0.ckr := by decide

/-- Claim C3: the specification says a stored skipped message key is used
(and removed) to decrypt an out-of-order message, so any permutation within
a chain decrypts.  In the code `decrypt` never consults the skipped-key
store: after message 2 is received (storing the key for message 1), the
out-of-order message 1 FAILS to decrypt, even though the stored skipped key
would decrypt it. -/
theorem claim_C3_skipped_key_never_used :
    c3Recv2.2 = .ok [22] ∧
      storeLookup c3Recv2.1.skipped (0, 1) = some c3M1.2 ∧
      decryptAEAD c3M1.2 c3Ct1 c3Hdr1 = some [11] ∧
      c3Recv1.2 = .error .decryptFailed := by decide

theorem storeSet_length (st : SkipStore) (k : Nat × Nat) (v : Bytes) :
    (storeSet st k v).length =
      if storeLookup st k = none then st.length + 1 else st.length := by
  induction st with
  | nil => simp [storeSet, storeLookup]
  | cons e rest ih =>
      by_cases h : e.1 = k
      · simp [storeSet, storeLookup, h]
      · simp only [storeSet, storeLookup, if_neg h, List.length_cons, ih]
        split <;> simp

theorem storeSet_length_le (st : SkipStore) (k : Nat × Nat) (v : Bytes) :
    (storeSet st k v).length ≤ st.length + 1 := by
  rw [storeSet_length]; split <;> omega

theorem storeLookup_set_ne (st : SkipStore) (k : Nat × Nat) (v : Bytes)
    (k' : Nat × Nat) (h : k' ≠ k) :
    storeLookup (storeSet st k v) k' = storeLookup st k' := by
  induction st with
  | nil => simp [storeSet, storeLookup, Ne.symm h]
  | cons e rest ih =>
      by_cases he : e.1 = k
      · subst he
        simp [storeSet, storeLookup, Ne.symm h]
      · simp [storeSet, storeLookup, he, ih]

theorem skipToAux_nr (fuel : Nat) :
    ∀ ck nr pn st, (skipToAux fuel ck nr pn st).2.1 = nr + fuel := by
  induction fuel with
  | zero => intro ck nr pn st; simp [skipToAux]
  | succ f ih => intro ck nr pn st; simp [skipToAux, ih]; omega

theorem skipToAux_lookup_none (fuel : Nat) :
    ∀ ck nr pn st p j, storeLookup st (p, j) = none →
      (p ≠ pn ∨ j < nr ∨ nr + fuel ≤ j) →
      storeLookup ((skipToAux fuel ck nr pn st).2.2) (p, j) = none := by
  induction fuel with
  | zero => intro ck nr pn st p j h _; simpa [skipToAux] using h
  | succ f ih =>
      intro ck nr pn st p j h hcond
      simp only [skipToAux]
      apply ih
      · rw [storeLookup_set_ne]
        · exact h
        · intro hh
          have h1 : p = pn := (Prod.mk.injEq _ _ _ _ ▸ hh).1
          have h2 : j = nr := (Prod.mk.injEq _ _ _ _ ▸ hh).2
          rcases hcond with hc | hc | hc
          · exact hc h1
          · omega
          · omega
      · rcases hcond with hc | hc | hc
        · exact Or.inl hc
        · exact Or.inr (Or.inl (by omega))
        · exact Or.inr (Or.inr (by omega))

theorem skipToAux_store_length (fuel : Nat) :
    ∀ ck nr pn st, (∀ i, i < fuel → storeLookup st (pn, nr + i) = none) →
      ((skipToAux fuel ck nr pn st).2.2).length = st.length + fuel := by
  induction fuel with
  | zero => intro ck nr pn st _; simp [skipToAux]
  | succ f ih =>
      intro ck nr pn st h
      simp only [skipToAux]
      rw [ih _ _ _ _ ?_]
      · rw [storeSet_length, if_pos (by simpa using h 0 (by omega))]
        omega
      · intro i hi
        rw [storeLookup_set_ne]
        · simpa [Nat.add_assoc, Nat.add_comm 1 i] using h (i + 1) (by omega)
        · intro hh
          have h2 : nr + 1 + i = nr := (Prod.mk.injEq _ _ _ _ ▸ hh).2
          omega

theorem skipToAux_store_le (fuel : Nat) :
    ∀ ck nr pn st, ((skipToAux fuel ck nr pn st).2.2).length ≤ st.length + fuel := by
  induction fuel with
  | zero => intro ck nr pn st; simp [skipToAux]
  | succ f ih =>
      intro ck nr pn st
      simp only [skipToAux]
      calc ((skipToAux f (KDF_CK ck).1 (nr + 1) pn (storeSet st (pn, nr) (KDF_CK ck).2)).2.2).length
          ≤ (storeSet st (pn, nr) (KDF_CK ck).2).length + f := ih _ _ _ _
        _ ≤ st.length + 1 + f := by have := storeSet_length_le st (pn, nr) (KDF_CK ck).2; omega
        _ = st.length + (f + 1) := by omega

theorem storeSet_all (st : SkipStore) (k : Nat × Nat) (v : Bytes)
    (p : (Nat × Nat) × Bytes → Bool) (hst : st.all p = true) (hkv : p (k, v) = true) :
    (storeSet st k v).all p = true := by
  induction st with
  | nil => simp [storeSet, hkv]
  | cons e rest ih =>
      simp only [List.all_cons, Bool.and_eq_true] at hst
      by_cases he : e.1 = k
      · simp [storeSet, he, hkv, hst.2]
      · simp [storeSet, he, hst.1, ih hst.2]

theorem skipToAux_all (fuel : Nat) (p : (Nat × Nat) × Bytes → Bool) :
    ∀ ck nr pn st, st.all p = true → (∀ i v, p ((pn, i), v) = true) →
      ((skipToAux fuel ck nr pn st).2.2).all p = true := by
  induction fuel with
  | zero => intro ck nr pn st h _; simpa [skipToAux] using h
  | succ f ih =>
      intro ck nr pn st h hp
      simp only [skipToAux]
      exact ih _ _ _ _ (storeSet_all _ _ _ _ h (hp _ _)) hp

theorem c6_nr1 : c6aux1.2.1 = 1000 := by
  unfold c6aux1; rw [skipToAux_nr]

theorem c6_len1 : c6aux1.2.2.length = 1000 := by
  unfold c6aux1
  rw [skipToAux_store_length 1000 [4] 0 0 [] (fun i _ => rfl)]
  rfl

theorem c6_step1 : skipTo c6cexS0 1000 = .ok c6s1 := by
  simp [skipTo, c6cexS0, c6s1, c6aux1, MAX_SKIP]

theorem c6_step2 :
    skipTo c6s1 2000 =
      .ok { c6s1 with
              ckr := some (skipToAux 1000 c6aux1.1 1000 0 c6aux1.2.2).1,
              Nr := (skipToAux 1000 c6aux1.1 1000 0 c6aux1.2.2).2.1,
              skipped := (skipToAux 1000 c6aux1.1 1000 0 c6aux1.2.2).2.2 } := by
  simp [skipTo, c6s1, MAX_SKIP, c6_nr1]

theorem c6_len2 : (skipToAux 1000 c6aux1.1 1000 0 c6aux1.2.2).2.2.length = 2000 := by
  rw [skipToAux_store_length 1000 c6aux1.1 1000 0 c6aux1.2.2 ?_]
  · rw [c6_len1]
  · intro i hi
    unfold c6aux1
    apply skipToAux_lookup_none
    · rfl
    · right; right; omega

theorem c6_all2 :
    (skipToAux 1000 c6aux1.1 1000 0 c6aux1.2.2).2.2.all (fun e => e.1.1 == 0) = true := by
  apply skipToAux_all
  · unfold c6aux1
    apply skipToAux_all
    · rfl
    · intro i v; rfl
  · intro i v; rfl

/-- Claim C6 counterexample: the claim says skipped message keys are stored
only up to a cap of `MAX_SKIP = 1000` per chain.  Starting from a fresh
receive chain, skipping to message 1000 and then to message 2000 succeeds
(each receive individually respects the `Nr + MAX_SKIP` guard) and leaves
2000 stored skipped keys, all in the same chain - more than `MAX_SKIP`. -/
theorem claim_C6_counterexample :
    Except.map (fun s => (s.skipped.length, s.skipped.all (fun e => e.1.1 == 0)))
        c6cexTwo = .ok (2000, true) ∧ MAX_SKIP < 2000 := by
  constructor
  · unfold c6cexTwo
    rw [c6_step1]
    simp only []
    rw [c6_step2]
    simp only [Except.map]
    rw [c6_len2]
    rw [c6_all2]
  · decide

/-- Claim C6 (amended): per receive, `skipTo` throws once the requested
message number exceeds `Nr + MAX_SKIP` (the repository's
`Too many skipped messages`, the specification's `ChainTooLong`) without
deriving any message keys; a successful call stores at most `MAX_SKIP` new
skipped keys; and a receiver whose first message of a fresh chain has a
message number beyond `MAX_SKIP` (for example the 2000th message of a
2000-message chain) gets that error with its skipped store untouched.  The
per-chain TOTAL may however exceed `MAX_SKIP` across several receives (see
the counterexample). -/
theorem claim_C6_skip_cap (s : DRState) (u : Nat) :
    (s.Nr + MAX_SKIP < u → skipTo s u = .error .tooManySkipped) ∧
    (∀ s', skipTo s u = .ok s' →
        s'.skipped.length ≤ s.skipped.length + MAX_SKIP) ∧
    (∀ header ct ad fresh, s.ckr = none → s.dhr = none →
        MAX_SKIP < readU32 header 4 →
        (decryptDR s header ct ad fresh).2 = .error .tooManySkipped ∧
        (decryptDR s header ct ad fresh).1.skipped = s.skipped) := by
  refine ⟨?_, ?_, ?_⟩
  · intro h; simp [skipTo, h]
  · intro s' h
    unfold skipTo at h
    by_cases h1 : s.Nr + MAX_SKIP < u
    · simp [h1] at h
    · rw [if_neg h1] at h
      by_cases h2 : s.Nr < u
      · rw [if_pos h2] at h
        cases hc : s.ckr with
        | none => rw [hc] at h; cases h
        | some ck =>
            rw [hc] at h
            cases h
            calc (skipToAux (u - s.Nr) ck s.Nr s.PN s.skipped).2.2.length
                ≤ s.skipped.length + (u - s.Nr) := skipToAux_store_le _ _ _ _ _
              _ ≤ s.skipped.length + MAX_SKIP := by omega
      · rw [if_neg h2] at h
        cases h
        omega
  · intro header ct ad fresh hckr hdhr hn
    constructor <;> simp [decryptDR, skipTo, hdhr, hckr, hn]

/-- Claim C8 counterexample: the claim says a header is a 32-byte DH public
key, then 4-byte PN, then 4-byte N (40 bytes total).  The header the code
builds for a 65-byte raw P-256 public key is 73 bytes long and does not
start with the public key. -/
theorem claim_C8_counterexample :
    (mkHEADER c8Pub 1 2).length = 73 ∧ (mkHEADER c8Pub 1 2).length ≠ 32 + 4 + 4 ∧
      (mkHEADER c8Pub 1 2).take 32 ≠ c8Pub.take 32 := by decide

/-- Claim C8 (amended): every header produced by send is the 4-byte
big-endian previous-chain length `PN`, then the 4-byte big-endian message
number `N`, then the raw exported public key (65 bytes on P-256), in that
order; the receive path parses exactly this layout (`getUint32(0)`,
`getUint32(4)`, `slice(8)`), recovering `(PN, N, key)`. -/
theorem claim_C8_header_layout (pub : Bytes) (pn n : Nat)
    (hpn : pn < 4294967296) (hn : n < 4294967296) :
    mkHEADER pub pn n = be32 pn ++ be32 n ++ pub ∧
      parseHEADER (mkHEADER pub pn n) = (pn, n, pub) := by
  refine ⟨rfl, ?_⟩
  have h : parseHEADER (mkHEADER pub pn n) =
      (pn / 16777216 % 256 * 16777216 + pn / 65536 % 256 * 65536 +
         pn / 256 % 256 * 256 + pn % 256,
       n / 16777216 % 256 * 16777216 + n / 65536 % 256 * 65536 +
         n / 256 % 256 * 256 + n % 256, pub) := rfl
  rw [h]
  simp only [Prod.mk.injEq]
  exact ⟨by omega, by omega, trivial⟩

/-- Claim C8 witness: the amended layout theorem at a concrete 65-byte key
and counters 3 and 7. -/
theorem claim_C8_witness :
    mkHEADER (List.replicate 65 9) 3 7 = be32 3 ++ be32 7 ++ List.replicate 65 9 ∧
      parseHEADER (mkHEADER (List.replicate 65 9) 3 7) = (3, 7, List.replicate 65 9) :=
  claim_C8_header_layout (List.replicate 65 9) 3 7 (by decide) (by decide)

/-- Claim C9: `encryptAEAD` outputs the 12-byte IV followed by the AES-GCM
output (ciphertext body plus 16-byte tag), so the ciphertext is exactly 28
bytes longer than the plaintext, and `decryptAEAD` with the same key and
associated data recovers the plaintext. -/
theorem claim_C9_aead_roundtrip (mk iv pt ad : Bytes) (hiv : iv.length = 12)
    (hpt : ∀ x ∈ pt, x < 256) :
    (encryptAEAD mk iv pt ad).length = pt.length + 28 ∧
      decryptAEAD mk (encryptAEAD mk iv pt ad) ad = some pt := by
  constructor
  · simp only [encryptAEAD, List.length_append, gcmEncrypt_length, hiv]
    omega
  · unfold decryptAEAD encryptAEAD
    rw [take_len_append _ _ _ hiv, drop_len_append _ _ _ hiv]
    exact gcmDecrypt_gcmEncrypt mk iv ad pt hpt

/-- Claim C9 witness: the AEAD round-trip at a concrete key, IV, plaintext
and associated data. -/
theorem claim_C9_witness :
    (encryptAEAD [1] (List.replicate 12 0) [5, 6] [9]).length = 2 + 28 ∧
      decryptAEAD [1] (encryptAEAD [1] (List.replicate 12 0) [5, 6] [9]) [9] = some [5, 6] :=
  claim_C9_aead_roundtrip [1] (List.replicate 12 0) [5, 6] [9] (by decide) (by decide)

/-- Claim C6 witness: the amended theorem applied at concrete states - a
fresh responder state receiving message 1999 first, and a one-step skip. -/
theorem claim_C6_witness :
    skipTo c6wA 1001 = .error .tooManySkipped ∧
      c6wBRes.skipped.length ≤ c6wB.skipped.length + MAX_SKIP ∧
      (decryptDR c6wA c6wHdr [] [] (kpOf 7)).2 = .error .tooManySkipped ∧
      (decryptDR c6wA c6wHdr [] [] (kpOf 7)).1.skipped = c6wA.skipped :=
  ⟨(claim_C6_skip_cap c6wA 1001).1 (by decide),
   (claim_C6_skip_cap c6wB 2).2.1 c6wBRes (by decide),
   ((claim_C6_skip_cap c6wA 0).2.2 c6wHdr [] [] (kpOf 7) rfl rfl (by decide)).1,
   ((claim_C6_skip_cap c6wA 0).2.2 c6wHdr [] [] (kpOf 7) rfl rfl (by decide)).2⟩

/-- Claim C7: for every key pair and message, verifying the signature
produced by `signMessage` (Ed25519-detached, base64-encoded) against the
message and the public key returns true.  libsodium secret keys are
`seed(32) ++ publicKey(32)`, which the hypothesis reflects. -/
theorem claim_C7_sign_verify_roundtrip (seed pk msg : Bytes) (hseed : seed.length = 32) :
    verifyMessage msg (signMessage msg (seed ++ pk)) pk = true := by
  unfold verifyMessage signMessage cryptoSignVerifyDetached cryptoSignDetached
  rw [decodeB64_encodeB64 _ (prf64_lt _)]
  rw [drop_len_append _ _ _ hseed]
  simp

/-- Claim C7 witness: the signature round-trip on the message `hi` under a
concrete key pair. -/
theorem claim_C7_witness :
    verifyMessage [104, 105] (signMessage [104, 105] (List.replicate 32 1 ++ List.replicate 32 2))
      (List.replicate 32 2) = true :=
  claim_C7_sign_verify_roundtrip (List.replicate 32 1) (List.replicate 32 2) [104, 105] (by decide)

theorem sbTag_length (key nonce ct : Bytes) : (sbTag key nonce ct).length = 16 := by
  simp [sbTag]

theorem sbKeystream_length (key nonce : Bytes) (n : Nat) :
    (sbKeystream key nonce n).length = n := by simp [sbKeystream]

theorem sbKeystream_lt (key nonce : Bytes) (n : Nat) :
    ∀ x ∈ sbKeystream key nonce n, x < 256 := by
  intro x hx
  simp only [sbKeystream, List.mem_map] at hx
  obtain ⟨i, _, rfl⟩ := hx
  exact streamByte_lt _ _ _

theorem secretboxOpen_secretbox (pt nonce key : Bytes) (hpt : ∀ x ∈ pt, x < 256) :
    secretboxOpen (secretbox pt nonce key) nonce key = some pt := by
  have hbl : (List.zipWith addByte pt (sbKeystream key nonce pt.length)).length = pt.length := by
    simp [List.length_zipWith, sbKeystream_length]
  unfold secretboxOpen secretbox
  simp only []
  rw [if_neg (by simp [sbTag_length])]
  rw [take_len_append _ _ _ (sbTag_length _ _ _), drop_len_append _ _ _ (sbTag_length _ _ _)]
  rw [if_pos rfl, hbl]
  rw [zip_sub_add pt _ (by rw [sbKeystream_length]) hpt (sbKeystream_lt key nonce pt.length)]

/-- Claim C10: in the tweetnacl Double Ratchet, when authenticated
decryption (`secretbox.open`) of a received payload fails, `decrypt`
resolves with an empty byte array instead of raising an error; an honestly
encrypted EMPTY plaintext yields the same empty result, so the caller
cannot tell a forged message from an empty one by the result alone.  (The
`no receiving chain` warn branch also returns empty, though `dhRatchet`
always installs a receive chain, making that branch unreachable.) -/
theorem claim_C10_silent_failure (s : NRState) (fresh : KeyPair) (payload : Bytes)
    (s1 : NRState) (mk : Bytes) :
    (drStep s fresh (payload.take 32) = (s1, some mk) →
        secretboxOpen (cipherOf payload) (nonceOf payload) mk = none →
        decryptN s fresh payload = (s1, [])) ∧
    (drStep s fresh (payload.take 32) = (s1, some mk) →
        cipherOf payload = secretbox [] (nonceOf payload) mk →
        decryptN s fresh payload = (s1, [])) := by
  constructor
  · intro h hopen
    simp [decryptN, h, hopen]
  · intro h henc
    simp [decryptN, h, henc,
      secretboxOpen_secretbox [] (nonceOf payload) mk (by intro x hx; cases hx)]

/-- Claim C10 witness: a concrete session receiving a forged payload and a
payload carrying an honestly encrypted empty plaintext - both decrypts
return the empty byte array with the same advanced state. -/
theorem claim_C10_witness :
    decryptN c10S0 (kpOf 7) c10Forged = (c10S1, []) ∧
      decryptN c10S0 (kpOf 7) c10Honest = (c10S1, []) :=
  ⟨(claim_C10_silent_failure c10S0 (kpOf 7) c10Forged c10S1 (ratchetCK [4]).2).1
      (by decide) (by decide),
   (claim_C10_silent_failure c10S0 (kpOf 7) c10Honest c10S1 (ratchetCK [4]).2).2
      (by decide) (by decide)⟩

theorem x3dhIKM_concat (d1 d2 d3 d4 : Bytes) (h1 : d1.length = 32) (h2 : d2.length = 32)
    (h3 : d3.length = 32) (h4 : d4.length = 32) :
    x3dhIKM d1 d2 d3 d4 = d1 ++ d2 ++ d3 ++ d4 := by
  have e1 : setAt (List.replicate 128 0) 0 d1 = d1 ++ List.replicate 96 0 := by
    unfold setAt
    rw [h1]
    rw [(by decide : (List.replicate 128 (0 : Nat)).take 0 = []),
      (by decide : (List.replicate 128 (0 : Nat)).drop (0 + 32) = List.replicate 96 0)]
    try simp
  have e2 : setAt (d1 ++ List.replicate 96 0) 32 d2 = d1 ++ d2 ++ List.replicate 64 0 := by
    unfold setAt
    rw [h2]
    rw [take_len_append _ _ _ h1, drop_len_append_add _ _ 32 32 h1,
      (by decide : (List.replicate 96 (0 : Nat)).drop 32 = List.replicate 64 0)]
    try simp
  have e3 : setAt (d1 ++ d2 ++ List.replicate 64 0) 64 d3 =
      d1 ++ d2 ++ d3 ++ List.replicate 32 0 := by
    unfold setAt
    rw [h3]
    rw [take_len_append (d1 ++ d2) _ 64 (by simp [h1, h2]),
      drop_len_append_add (d1 ++ d2) _ 64 32 (by simp [h1, h2]),
      (by decide : (List.replicate 64 (0 : Nat)).drop 32 = List.replicate 32 0)]
    try simp
  have e4 : setAt (d1 ++ d2 ++ d3 ++ List.replicate 32 0) 96 d4 = d1 ++ d2 ++ d3 ++ d4 := by
    unfold setAt
    rw [h4]
    rw [take_len_append (d1 ++ d2 ++ d3) _ 96 (by simp [h1, h2, h3]),
      drop_len_append_add (d1 ++ d2 ++ d3) _ 96 32 (by simp [h1, h2, h3]),
      (by decide : (List.replicate 32 (0 : Nat)).drop 32 = ([] : List Nat))]
    try simp
  unfold x3dhIKM
  rw [e1, e2, e3, e4]

theorem scalarMult_length (sk pk : Bytes) : (scalarMult sk pk).length = 32 := by
  simp [scalarMult, encodeLE_length]

/-- Claim C4 (amended): after a successful SPK-signature check, the derived
session key is HKDF-SHA-256 with salt 32 zero bytes, info `X3DH-Session`
(not `X3DH-Signal`), output length 32, over the ikm
`DH1 || DH2 || DH3 || DH4'`, where `DH4'` is the fourth DH output when a
one-time prekey is present and 32 ZERO bytes otherwise - with no `F`
(0xFF) prefix.  The 128-byte `Uint8Array` assembly at offsets 0/32/64/96
equals this concatenation. -/
theorem claim_C4_session_formula (dhSec : Bytes) (fresh : KeyPair) (b : PeerBundle)
    (hsig : verifyMessage b.spPub b.spSig b.edPub = true) :
    deriveSession dhSec fresh b =
      .ok (hkdfModel
        (scalarMult dhSec b.spPub ++ scalarMult (ephOf b fresh).sec b.dhPub ++
          scalarMult (ephOf b fresh).sec b.spPub ++
          (match b.otpPub with
           | some o => scalarMult (ephOf b fresh).sec o
           | none => List.replicate 32 0))
        (List.replicate 32 0) infoX3DHSession 32) := by
  have h := x3dhIKM_concat (scalarMult dhSec b.spPub)
    (scalarMult (b.ephKeypair.getD fresh).sec b.dhPub)
    (scalarMult (b.ephKeypair.getD fresh).sec b.spPub)
    (match b.otpPub with
     | some o => scalarMult (b.ephKeypair.getD fresh).sec o
     | none => List.replicate 32 0)
    (scalarMult_length _ _) (scalarMult_length _ _) (scalarMult_length _ _)
    (by cases b.otpPub <;> simp [scalarMult_length])
  simp only [deriveSession]
  rw [if_pos hsig]
  unfold ephOf
  rw [h]

/-- Claim C4 counterexample: at a concrete honest bundle the session key
the code derives differs from the value the claim states
(HKDF over `F || DH1 || DH2 || DH3 || DH4` with info `X3DH-Signal`). -/
theorem claim_C4_counterexample :
    deriveSession (encodeLE 32 23) (kpOf 29) c4Bundle ≠
      Except.ok (x3dhSpecSK (scalarMult (encodeLE 32 23) c4Bundle.spPub)
        (scalarMult (kpOf 19).sec c4Bundle.dhPub)
        (scalarMult (kpOf 19).sec c4Bundle.spPub)
        (some (scalarMult (kpOf 19).sec (pubOf 17)))) := by decide

/-- Claim C4 witness: the amended formula at a concrete honest bundle with
a one-time prekey. -/
theorem claim_C4_witness :
    deriveSession (encodeLE 32 23) (kpOf 29) c4Bundle =
      .ok (hkdfModel
        (scalarMult (encodeLE 32 23) c4Bundle.spPub ++
          scalarMult (ephOf c4Bundle (kpOf 29)).sec c4Bundle.dhPub ++
          scalarMult (ephOf c4Bundle (kpOf 29)).sec c4Bundle.spPub ++
          (match c4Bundle.otpPub with
           | some o => scalarMult (ephOf c4Bundle (kpOf 29)).sec o
           | none => List.replicate 32 0))
        (List.replicate 32 0) infoX3DHSession 32) :=
  claim_C4_session_formula (encodeLE 32 23) (kpOf 29) c4Bundle (by decide)

/-- Claim C5: for every pair of honestly generated bundles (signatures
verify, the bundle's identity, signed-prekey and one-time-prekey publics
are the responder's, the remote bundle carries the initiator's identity and
ephemeral publics, and the one-time prekey is present on both sides or on
neither), the initiator's `deriveSession` and the responder's
`deriveSessionFromRemote` derive the same session key. -/
theorem claim_C5_x3dh_agreement
    (a e bId sp o : Nat) (fresh : KeyPair) (bundle : PeerBundle) (remote : RemoteBundle)
    (ha : a < 256 ^ 32) (he : e < 256 ^ 32) (hb : bId < 256 ^ 32)
    (hsp : sp < 256 ^ 32) (ho : o < 256 ^ 32)
    (hb1 : bundle.dhPub = pubOf bId) (hb2 : bundle.spPub = pubOf sp)
    (hb3 : bundle.ephKeypair = some ⟨encodeLE 32 e, pubOf e⟩)
    (hr1 : remote.dhPub = pubOf a) (hr2 : remote.ephPub = pubOf e)
    (hotp : (bundle.otpPub = some (pubOf o) ∧ remote.otpPub.isSome = true) ∨
            (bundle.otpPub = none ∧ remote.otpPub = none))
    (hsigA : verifyMessage bundle.spPub bundle.spSig bundle.edPub = true)
    (hsigB : verifyMessage remote.spPub remote.spSig remote.edPub = true) :
    deriveSession (encodeLE 32 a) fresh bundle =
      deriveSessionFromRemote ⟨encodeLE 32 bId, encodeLE 32 sp, encodeLE 32 o⟩ remote := by
  simp only [deriveSession, deriveSessionFromRemote]
  rw [if_pos hsigA, if_pos hsigB]
  rw [hb2, hb1, hb3, hr1, hr2]
  simp only [Option.getD_some]
  rw [scalarMult_comm a sp ha hsp, scalarMult_comm e bId he hb, scalarMult_comm e sp he hsp]
  rcases hotp with ⟨h1, h2⟩ | ⟨h1, h2⟩
  · obtain ⟨x, hx⟩ := Option.isSome_iff_exists.mp h2
    rw [h1, hx]
    simp only []
    rw [scalarMult_comm e o he ho]
  · rw [h1, h2]

/-- Claim C5 witness: agreement at concrete seeds (initiator identity 2,
ephemeral 3; responder identity 5, signed prekey 7, one-time prekey 11)
with a valid concrete SPK signature. -/
theorem claim_C5_witness :
    deriveSession (encodeLE 32 2) (kpOf 31) c5Bundle =
      deriveSessionFromRemote ⟨encodeLE 32 5, encodeLE 32 7, encodeLE 32 11⟩ c5Remote :=
  claim_C5_x3dh_agreement 2 3 5 7 11 (kpOf 31) c5Bundle c5Remote
    (by decide) (by decide) (by decide) (by decide) (by decide)
    rfl rfl rfl rfl rfl (Or.inl ⟨rfl, rfl⟩) (by decide) (by decide)
